import Mathlib

/-!
Verification of the nodehost-pro process-lifecycle, log-broadcast and file
subsystems, shallowly embedded from the TypeScript source
(process-service.ts, routes.ts, file-service.ts, schema.ts).

JavaScript data is modelled as follows: strings are Lean `String`, JS `Map`
is an association list preserving insertion order with overwriting `set`,
JS truthiness of an optional string is `jsTruthyStr`, and the decimal
rendering of `Date.now()` is `natToDecimal`.  Filesystem state needed by an
operation is passed explicitly (the directory listing, whether a path
exists), and the spawned OS process is an opaque token supplied by the
environment.  Fallible operations return `Except String`.
-/

namespace NodeHost

/-- JS truthiness of an optional string value: `undefined`/`null` and the
empty string are falsy, every other string is truthy. -/
def jsTruthyStr : Option String → Bool
  | none => false
  | some s => s ≠ ""

/-- Decimal digits, least-significant first, with explicit fuel (structural
recursion, so concrete values reduce in the kernel); `n ≤ fuel` gives the
true digit list. -/
def decAuxFuel : Nat → Nat → List Nat
  | 0, _ => []
  | fuel + 1, n => if n = 0 then [] else n % 10 :: decAuxFuel fuel (n / 10)

/-- Decimal digits of `n`, least-significant first; `[]` for `0`. -/
def decAux (n : Nat) : List Nat := decAuxFuel n n

/-- The character for a single decimal digit. -/
def decDigitChar (d : Nat) : Char := Char.ofNat (48 + d)

/-- Decimal string representation of a natural number, as JS `ToString`
renders an integral number (e.g. the value of `Date.now()`). -/
def natToDecimal (n : Nat) : String :=
  if n = 0 then "0" else String.mk (((decAux n).map decDigitChar).reverse)

/-- Inverse of `decDigitChar` on digits. -/
def decodeDigit (c : Char) : Nat := c.toNat - 48

/-- Reads back a least-significant-first digit-character list. -/
def decodeRev : List Char → Nat
  | [] => 0
  | c :: cs => decodeDigit c + 10 * decodeRev cs

/-! ## Association-list model of a JS `Map` (insertion order, overwriting set) -/

/-- `Map.get`: the value at the first matching key, if any. -/
def alGet {α : Type} (m : List (String × α)) (k : String) : Option α :=
  match m with
  | [] => none
  | (k1, v) :: rest => if k1 = k then some v else alGet rest k

/-- `Map.set`: overwrite the first entry with the key, else append. -/
def alSet {α : Type} (m : List (String × α)) (k : String) (v : α) :
    List (String × α) :=
  match m with
  | [] => [(k, v)]
  | (k1, v1) :: rest =>
    if k1 = k then (k, v) :: rest else (k1, v1) :: alSet rest k v

/-- `Map.delete`: drop every entry with the key. -/
def alErase {α : Type} (m : List (String × α)) (k : String) :
    List (String × α) :=
  m.filter (fun e => e.1 ≠ k)

/-! ## Entry-point resolution (process-service.ts, startProcess lines 442-480) -/

/-- The `scripts` object of a parsed package.json, as far as the code reads it. -/
structure ScriptsObj where
  start : Option String
deriving Repr, DecidableEq

/-- A parsed package.json, as far as the code reads it. -/
structure PkgJson where
  scripts : Option ScriptsObj
  main : Option String
deriving Repr, DecidableEq

/-- The fixed fallback list `commonEntries` scanned for an entry file. -/
def commonEntries : List String :=
  ["index.js", "main.js", "app.js", "server.js", "bot.js"]

/-- The start-command selection of `startProcess`: `pkg` is the parsed
package.json when the file exists in the directory, `files` the directory
listing.  Mirrors the if/else chain of the source: prefer `npm start`, then
`node <main>` when `packageJson.main` is truthy and listed, then the first
match from `commonEntries`, else the "No valid entry point" error. -/
def resolveStartScript (files : List String) (pkg : Option PkgJson) :
    Except String String :=
  match pkg with
  | some packageJson =>
    if jsTruthyStr (packageJson.scripts.bind (fun s => s.start)) then
      Except.ok "npm start"
    else if jsTruthyStr packageJson.main
        && files.contains (packageJson.main.getD "") then
      Except.ok ("node " ++ packageJson.main.getD "")
    else
      match commonEntries.find? (fun file => files.contains file) with
      | some entryFile => Except.ok ("node " ++ entryFile)
      | none => Except.error
          "No valid entry point found. Please ensure your project has a main file or start script."
  | none =>
    match commonEntries.find? (fun file => files.contains file) with
    | some entryFile => Except.ok ("node " ++ entryFile)
    | none => Except.error
        "No valid entry point found. Please ensure you have index.js, main.js, app.js, server.js, or bot.js in your project."

/-- Whether the manifest, when present, carries a truthy `scripts.start`
(the condition of the first branch of the resolver). -/
def hasStartScript (pkg : Option PkgJson) : Bool :=
  match pkg with
  | some p => jsTruthyStr (p.scripts.bind (fun s => s.start))
  | none => false

/-- Whether the manifest, when present, declares a truthy `main` that is in
the directory listing (the condition of the second branch of the resolver). -/
def usableMain (files : List String) (pkg : Option PkgJson) : Bool :=
  match pkg with
  | some p => jsTruthyStr p.main && files.contains (p.main.getD "")
  | none => false

/-! ## Process registry (process-service.ts, class ProcessService) -/

/-- An opaque token for a spawned OS child process. -/
structure ChildProc where
  pid : Nat
deriving Repr, DecidableEq

/-- The in-memory registry `processes : Map<string, ChildProcess>`. -/
abbrev Registry := List (String × ChildProc)

/-- The handle id generated at spawn time: the template
string of the server id, a dash, and the `Date.now()` value. -/
def genProcessId (serverId : String) (now : Nat) : String :=
  serverId ++ "-" ++ natToDecimal now

/-- The environment facts a single `startProcess` call consumes: the
directory listing seen by the resolver, the parsed package.json when present,
the exit code `npm install` would close with (consulted only when
package.json exists), the child process a successful spawn yields, and the
`Date.now()` value at handle generation. -/
structure StartInput where
  files : List String
  pkg : Option PkgJson
  installExit : Int
  spawnedProc : ChildProc
  now : Nat
deriving Repr, DecidableEq

deriving instance DecidableEq for Except

/-- What one `startProcess` call produced: the returned handle id or the
thrown error message, the registry afterwards, and the project child process
if the spawn step was reached. -/
structure StartResult where
  result : Except String String
  registry : Registry
  spawned : Option ChildProc
deriving Repr, DecidableEq

/-- `ProcessService.startProcess`, with its interactions with the
environment (directory listing, package.json, npm install exit code, spawn,
`Date.now()`) supplied in `inp`.  Mirrors the source: resolve the start
script; if package.json exists run `npm install` and fail on a non-zero
exit; then spawn, generate the handle id, and `set` it in the registry.
Every thrown error is wrapped as `Failed to start process: <error>` by the
outer catch, where a JS `Error` stringifies as `Error: <message>`. -/
def startProcess (serverId : String) (inp : StartInput) (reg : Registry) :
    StartResult :=
  match resolveStartScript inp.files inp.pkg with
  | Except.error e =>
    ⟨Except.error ("Failed to start process: Error: " ++ e), reg, none⟩
  | Except.ok _script =>
    let doSpawn : StartResult :=
      let processId := genProcessId serverId inp.now
      ⟨Except.ok processId, alSet reg processId inp.spawnedProc,
        some inp.spawnedProc⟩
    match inp.pkg with
    | some _ =>
      if inp.installExit = 0 then doSpawn
      else
        ⟨Except.error ("Failed to start process: Error: npm install failed with code "
            ++ toString inp.installExit), reg, none⟩
    | none => doSpawn

/-- The `close`-event listener attached to the spawned process: it deletes
its own handle id from the registry. -/
def onCloseHandler (reg : Registry) (processId : String) : Registry :=
  alErase reg processId

/-- The `error`-event listener attached to the spawned process: it deletes
its own handle id from the registry. -/
def onErrorHandler (reg : Registry) (processId : String) : Registry :=
  alErase reg processId

/-- `ProcessService.stopProcess`: look the handle up; when mapped, kill that
process and delete the entry at once; when unmapped, do nothing.  The second
component is the process the kill signal was sent to, if any.  The function
is total: no branch throws. -/
def stopProcess (reg : Registry) (processId : String) :
    Registry × Option ChildProc :=
  match alGet reg processId with
  | some p => (alErase reg processId, some p)
  | none => (reg, none)

/-! ## Log-line formatters (the listeners installed in startProcess) -/

/-- The `npm install` stdout/stderr listener: prefix the trimmed chunk with
the npm tag. -/
def npmLogLine (data : String) : String := "[npm] " ++ data.trim

/-- The child stdout listener: prefix the trimmed chunk with the stdout tag. -/
def stdoutLogLine (data : String) : String := "[stdout] " ++ data.trim

/-- The child stderr listener: prefix the trimmed chunk with the stderr tag. -/
def stderrLogLine (data : String) : String := "[stderr] " ++ data.trim

/-- The `close`-event log line, where the exit code is `null` when the
process was terminated by a signal. -/
def closeLogLine (code : Option Int) : String :=
  "Process exited with code "
    ++ (match code with | some n => toString n | none => "null")

/-! ## WebSocket broadcast (routes.ts, serverConnections and broadcastLog) -/

/-- A WebSocket connection object: an identity and its transport
`readyState` (`WebSocket.OPEN = 1`). -/
structure WsConn where
  id : Nat
  readyState : Nat
deriving Repr, DecidableEq

/-- The `ws` library constant `WebSocket.OPEN`. -/
def WS_OPEN : Nat := 1

/-- The `serverConnections` map from a server id to its set of connections,
the set kept in insertion order. -/
abbrev ConnMap := List (String × List WsConn)

/-- A JSON value, the level at which `JSON.stringify` is modelled: the wire
bytes are the (injective) standard serialization of this value. -/
inductive Json where
  | str : String → Json
  | obj : List (String × Json) → Json

/-- The envelope object `broadcastLog` passes to `JSON.stringify`: a `type`
tag of `log`, the ISO-8601 rendering `ts` of the current time, and the
message text. -/
def logEnvelope (ts msg : String) : Json :=
  Json.obj [("type", Json.str "log"), ("timestamp", Json.str ts),
            ("message", Json.str msg)]

/-- `broadcastLog(serverId, message)`: when the map holds a set for the
server id, send the serialized envelope to each connection of that set whose
`readyState` is `OPEN`, in set order; otherwise send nothing.  `ts` is the
ISO string the single `new Date().toISOString()` call produced.  The first
component lists the performed sends, the second is the connection map after
the call (the function never mutates it). -/
def broadcastLog (conns : ConnMap) (serverId : String) (ts msg : String) :
    List (WsConn × Json) × ConnMap :=
  match alGet conns serverId with
  | none => ([], conns)
  | some set =>
    ((set.filter (fun ws => ws.readyState = WS_OPEN)).map
        (fun ws => (ws, logEnvelope ts msg)),
      conns)

/-! ## HTTP handlers (routes.ts) -/

/-- A server record, the fields of the `servers` table the handlers read.
The status column's domain is documented in schema.ts as one of
`running`, `stopped`, `error`. -/
structure ServerRec where
  id : String
  userId : String
  status : String
  processId : Option String
  rootPath : String
deriving Repr, DecidableEq

/-- The status domain of a server record (schema.ts line 15). -/
def serverStatuses : List String := ["stopped", "running", "error"]

/-- Outcome of the server-creation handler: the HTTP status, the response
message, and whether the side effects (directory creation, record insertion)
happened. -/
structure CreateResult where
  httpStatus : Nat
  message : String
  dirCreated : Bool
  recordCreated : Bool
deriving Repr, DecidableEq

/-- `POST /api/servers`: reject with 400 when the user already owns three or
more servers, before any side effect; otherwise create the directory first
and then validate the body and insert the record (a validation failure after
the directory exists yields the 500 catch branch). -/
def createServerHandler (existingServers : List String) (validBody : Bool) :
    CreateResult :=
  if existingServers.length ≥ 3 then
    ⟨400, "Server limit reached (maximum 3 servers)", false, false⟩
  else if validBody then
    ⟨200, "", true, true⟩
  else
    ⟨500, "Failed to create server", true, false⟩

/-- Outcome of the start handler: the HTTP status, the `(processId, status)`
pair written to the server record if `updateServer` was called, and the
response message. -/
structure StartHandlerResult where
  httpStatus : Nat
  update : Option (Option String × String)
  message : String
deriving Repr, DecidableEq

/-- `POST /api/servers/:id/start`: 404 when the record is missing or owned
by another user; 400 when the root directory is missing or the consulted
directory (`.root_moved` when it exists, else the root) is empty; otherwise
run `startProcess` — on success write `(processId, "running")` and answer
200, on a thrown error write `(null, "stopped")` and answer 500 with the
error message. -/
def startServerHandler (server : Option ServerRec) (sessionUserId : String)
    (dirExists rootMovedExists : Bool)
    (filesInMoved filesInRoot : List String)
    (inp : StartInput) (reg : Registry) : StartHandlerResult × Registry :=
  match server with
  | none => (⟨404, none, "Server not found"⟩, reg)
  | some srv =>
    if srv.userId ≠ sessionUserId then
      (⟨404, none, "Server not found"⟩, reg)
    else if !dirExists then
      (⟨400, none, "Server directory not found. Please upload your bot files first."⟩, reg)
    else if rootMovedExists && filesInMoved.isEmpty then
      (⟨400, none, "No files found in root moved directory. Please move your bot files to root first."⟩, reg)
    else if !rootMovedExists && filesInRoot.isEmpty then
      (⟨400, none, "No files found in server directory. Please upload your bot files first."⟩, reg)
    else
      let sr := startProcess srv.id inp reg
      match sr.result with
      | Except.ok processId =>
        (⟨200, some (some processId, "running"), ""⟩, sr.registry)
      | Except.error msg =>
        (⟨500, some (none, "stopped"), msg⟩, sr.registry)

/-! ## File service (file-service.ts) -/

/-- The protected-file list of `FileService.deleteFile`. -/
def protectedFiles : List String :=
  ["package.json", "package-lock.json", "yarn.lock", "index.js", "main.js",
   "app.js", "server.js", "bot.js", "config.js", "command.js"]

/-- Whether the first character list starts the second. -/
def hasLeadChars : List Char → List Char → Bool
  | [], _ => true
  | _ :: _, [] => false
  | c :: cs, d :: ds => c = d && hasLeadChars cs ds

/-- Whether the first character list occurs contiguously in the second. -/
def hasSubChars : List Char → List Char → Bool
  | pat, [] => pat.isEmpty
  | pat, d :: ds => hasLeadChars pat (d :: ds) || hasSubChars pat ds

/-- JS `String.prototype.includes`: the pattern occurs in the string. -/
def containsSubstr (s pat : String) : Bool := hasSubChars pat.data s.data

/-- Drops the trailing slashes of a path's character list. -/
def dropTrailingSlashes (l : List Char) : List Char :=
  (l.reverse.dropWhile (fun c => c = '/')).reverse

/-- The characters after the last slash. -/
def afterLastSlash (l : List Char) : List Char :=
  (l.reverse.takeWhile (fun c => c ≠ '/')).reverse

/-- Node `path.basename` on POSIX paths: ignore trailing slashes, then take
the part after the last slash; an all-slash path keeps a single slash and
the empty path stays empty. -/
def posixBasename (p : String) : String :=
  let l := dropTrailingSlashes p.data
  if l.isEmpty then (if p.data.isEmpty then "" else "/")
  else String.mk (afterLastSlash l)

/-- `FileService.deleteFile` over `fsFiles`, the set of existing paths: a
path outside `.root_moved` whose basename is protected throws; otherwise the
path is removed when present (`fs.remove`), and nothing happens when
absent. -/
def deleteFile (fsFiles : List String) (filePath : String) :
    Except String (List String) :=
  let fileName := posixBasename filePath
  let isRootMovedFile := containsSubstr filePath ".root_moved"
  if !isRootMovedFile && protectedFiles.contains fileName then
    Except.error ("Cannot delete protected file: " ++ fileName)
  else if fsFiles.contains filePath then
    Except.ok (fsFiles.filter (fun f => f ≠ filePath))
  else
    Except.ok fsFiles

/-! ## Helper lemmas -/

theorem string_eq_of_data_eq {s t : String} (h : s.data = t.data) : s = t := by
  cases s; cases t; exact congrArg String.mk h

theorem alGet_alSet_self {α : Type} (m : List (String × α)) (k : String) (v : α) :
    alGet (alSet m k v) k = some v := by
  induction m with
  | nil => simp [alSet, alGet]
  | cons e rest ih =>
    obtain ⟨k1, v1⟩ := e
    by_cases h : k1 = k
    · simp [alSet, h, alGet]
    · simp [alSet, h, alGet, ih]

theorem alGet_alErase_self {α : Type} (m : List (String × α)) (k : String) :
    alGet (alErase m k) k = none := by
  induction m with
  | nil => simp [alErase, alGet]
  | cons e rest ih =>
    obtain ⟨k1, v1⟩ := e
    by_cases h : k1 = k
    · simpa [alErase, h] using ih
    · simpa [alErase, h, alGet] using ih

theorem alGet_alErase_ne {α : Type} (m : List (String × α)) {k h : String}
    (hne : k ≠ h) : alGet (alErase m h) k = alGet m k := by
  induction m with
  | nil => simp [alErase, alGet]
  | cons e rest ih =>
    obtain ⟨k1, v1⟩ := e
    by_cases hk : k1 = h
    · subst hk
      have : ¬k1 = k := fun hc => hne (hc ▸ rfl)
      simpa [alErase, alGet, this] using ih
    · by_cases hk2 : k1 = k
      · subst hk2
        simp [alErase, alGet, List.filter_cons, hk]
      · simpa [alErase, alGet, List.filter_cons, hk, hk2] using ih

theorem decodeDigit_decDigitChar : ∀ d, d < 10 →
    decodeDigit (decDigitChar d) = d := by decide

theorem decodeRev_decAuxFuel : ∀ fuel n, n ≤ fuel →
    decodeRev ((decAuxFuel fuel n).map decDigitChar) = n := by
  intro fuel
  induction fuel with
  | zero =>
    intro n hn
    have : n = 0 := Nat.le_zero.mp hn
    simp [this, decAuxFuel, decodeRev]
  | succ fuel ih =>
    intro n hn
    by_cases h : n = 0
    · simp [h, decAuxFuel, decodeRev]
    · have hdiv : n / 10 < n := Nat.div_lt_self (Nat.pos_of_ne_zero h) (by decide)
      simp only [decAuxFuel, h, if_false, List.map, decodeRev]
      rw [decodeDigit_decDigitChar _ (Nat.mod_lt n (by decide))]
      rw [ih (n / 10) (by omega)]
      exact Nat.mod_add_div n 10

theorem decodeRev_decAux (n : Nat) :
    decodeRev ((decAux n).map decDigitChar) = n :=
  decodeRev_decAuxFuel n n (Nat.le_refl n)

theorem natToDecimal_inj {m n : Nat} (h : natToDecimal m = natToDecimal n) :
    m = n := by
  unfold natToDecimal at h
  by_cases hm : m = 0 <;> by_cases hn : n = 0
  · omega
  · exfalso
    simp only [hm, if_true, hn, if_false] at h
    have h2 := congrArg String.data h
    have h3 : ((decAux n).map decDigitChar).reverse = ['0'] := h2.symm
    have h4 : (decAux n).map decDigitChar = ['0'] := by
      have := congrArg List.reverse h3
      simpa using this
    have h5 := decodeRev_decAux n
    rw [h4] at h5
    simp [decodeRev, decodeDigit] at h5
    exact hn (by omega)
  · exfalso
    simp only [hm, if_false, hn, if_true] at h
    have h2 := congrArg String.data h
    have h3 : ((decAux m).map decDigitChar).reverse = ['0'] := h2
    have h4 : (decAux m).map decDigitChar = ['0'] := by
      have := congrArg List.reverse h3
      simpa using this
    have h5 := decodeRev_decAux m
    rw [h4] at h5
    simp [decodeRev, decodeDigit] at h5
    exact hm (by omega)
  · simp only [hm, hn, if_false] at h
    have h2 := congrArg String.data h
    simp only [] at h2
    have h3 : ((decAux m).map decDigitChar).reverse
        = ((decAux n).map decDigitChar).reverse := h2
    have h4 := List.reverse_injective h3
    have h5 := congrArg decodeRev h4
    rw [decodeRev_decAux, decodeRev_decAux] at h5
    exact h5

theorem genProcessId_now_inj (s : String) {t1 t2 : Nat}
    (h : genProcessId s t1 = genProcessId s t2) : t1 = t2 := by
  unfold genProcessId at h
  have h2 := congrArg String.data h
  simp only [String.data_append, List.append_assoc] at h2
  have h3 := List.append_cancel_left (List.append_cancel_left h2)
  exact natToDecimal_inj (string_eq_of_data_eq h3)

theorem data_head_append (a b : String) (c : Char)
    (h : a.data.head? = some c) : (a ++ b).data.head? = some c := by
  rw [String.data_append]
  cases hd : a.data with
  | nil => rw [hd] at h; simp at h
  | cons x xs =>
    rw [hd] at h
    simp at h
    simp [h]

theorem string_ne_of_head_ne {s t : String}
    (h : s.data.head? ≠ t.data.head?) : s ≠ t :=
  fun he => h (congrArg (fun u => u.data.head?) he)

/-! ## Claims -/

/-- C1: for every project directory, the entry-point resolution in
`startProcess` selects, in priority order: `npm start` whenever package.json
exists and declares a (truthy) start script, regardless of what other files
are present; else `node <main>` when package.json declares a main file that
appears in the directory's listing; else `node <f>` for the first filename
of the ordered list index.js, main.js, app.js, server.js, bot.js appearing
in the listing; and when none of these apply it fails with a
"No valid entry point" error. -/
theorem C1_entry_point_resolution (files : List String) (pkg : Option PkgJson) :
    (∀ p, pkg = some p → hasStartScript pkg = true →
      resolveStartScript files pkg = Except.ok "npm start")
    ∧ (∀ p m, pkg = some p → hasStartScript pkg = false →
        p.main = some m → m ≠ "" → files.contains m = true →
        resolveStartScript files pkg = Except.ok ("node " ++ m))
    ∧ (∀ f, hasStartScript pkg = false → usableMain files pkg = false →
        commonEntries.find? (fun file => files.contains file) = some f →
        resolveStartScript files pkg = Except.ok ("node " ++ f))
    ∧ (hasStartScript pkg = false → usableMain files pkg = false →
        commonEntries.find? (fun file => files.contains file) = none →
        ∃ e, resolveStartScript files pkg = Except.error e
          ∧ containsSubstr e "No valid entry point" = true) := by
  refine ⟨?_, ?_, ?_, ?_⟩
  · intro p hp hstart
    subst hp
    simp only [hasStartScript] at hstart
    simp only [resolveStartScript]
    rw [hstart]
    simp
  · intro p m hp hstart hmain hne hfiles
    subst hp
    simp only [hasStartScript] at hstart
    simp only [resolveStartScript]
    rw [hstart]
    have hm2 : (jsTruthyStr p.main && files.contains (p.main.getD "")) = true := by
      rw [hmain]
      simpa [jsTruthyStr, hne] using hfiles
    rw [hm2]
    simp [hmain]
  · intro f hstart husable hfind
    cases pkg with
    | none =>
      simp only [resolveStartScript]
      rw [hfind]
    | some p =>
      simp only [hasStartScript] at hstart
      simp only [usableMain] at husable
      simp only [resolveStartScript]
      rw [hstart, husable, hfind]
      simp
  · intro hstart husable hfind
    cases pkg with
    | none =>
      refine ⟨"No valid entry point found. Please ensure you have index.js, main.js, app.js, server.js, or bot.js in your project.",
        ?_, by decide⟩
      simp only [resolveStartScript]
      rw [hfind]
    | some p =>
      simp only [hasStartScript] at hstart
      simp only [usableMain] at husable
      refine ⟨"No valid entry point found. Please ensure your project has a main file or start script.",
        ?_, by decide⟩
      simp only [resolveStartScript]
      rw [hstart, husable, hfind]
      simp

/-- C1 witness: a package.json with a start script wins even though none of
the conventional filenames is present. -/
theorem C1_entry_point_resolution_witness :
    resolveStartScript ["other.txt"]
        (some ⟨some ⟨some "node x.js"⟩, none⟩) = Except.ok "npm start" :=
  (C1_entry_point_resolution ["other.txt"]
      (some ⟨some ⟨some "node x.js"⟩, none⟩)).1 _ rfl (by decide)

/-- C2: `broadcastLog(topicId, message)` sends exactly the serialized
envelope with type tag `log`, the current ISO timestamp and the message, to
exactly those connections registered under the topic whose `readyState` is
`OPEN` — no connection of another topic, every non-OPEN connection silently
skipped — and the connection map is unchanged by the call. -/
theorem C2_broadcast_delivery (conns : ConnMap) (serverId ts msg : String)
    (c : WsConn) (e : Json) :
    ((c, e) ∈ (broadcastLog conns serverId ts msg).1 ↔
      (∃ cs, alGet conns serverId = some cs ∧ c ∈ cs
        ∧ c.readyState = WS_OPEN ∧ e = logEnvelope ts msg))
    ∧ (broadcastLog conns serverId ts msg).2 = conns := by
  constructor
  · unfold broadcastLog
    cases h : alGet conns serverId with
    | none => simp [h]
    | some cs =>
      simp only [h]
      constructor
      · intro hm
        rcases List.mem_map.mp hm with ⟨ws, hws, heq⟩
        rcases List.mem_filter.mp hws with ⟨hmem, hopen⟩
        cases heq
        refine ⟨cs, rfl, hmem, ?_, rfl⟩
        simpa using hopen
      · rintro ⟨cs2, hcs2, hmem, hopen, he⟩
        obtain rfl : cs = cs2 := by injection hcs2
        subst he
        exact List.mem_map.mpr
          ⟨c, List.mem_filter.mpr ⟨hmem, by simp [hopen]⟩, rfl⟩
  · unfold broadcastLog
    cases h : alGet conns serverId <;> simp [h]

/-- A `startProcess` call whose resolution fails throws the wrapped
resolution error, leaving the registry unchanged and spawning nothing. -/
theorem startProcess_resolve_error (serverId : String) (inp : StartInput)
    (reg : Registry) (e : String)
    (hres : resolveStartScript inp.files inp.pkg = Except.error e) :
    startProcess serverId inp reg =
      ⟨Except.error ("Failed to start process: Error: " ++ e), reg, none⟩ := by
  simp [startProcess, hres]

/-- A `startProcess` call that reaches the spawn step (resolution succeeded
and either no package.json exists or the install exited 0) returns the
composite handle id and stores the spawned child under it. -/
theorem startProcess_spawn (serverId : String) (inp : StartInput)
    (reg : Registry) (script : String)
    (hres : resolveStartScript inp.files inp.pkg = Except.ok script)
    (hinstall : inp.pkg = none ∨ inp.installExit = 0) :
    startProcess serverId inp reg =
      ⟨Except.ok (genProcessId serverId inp.now),
        alSet reg (genProcessId serverId inp.now) inp.spawnedProc,
        some inp.spawnedProc⟩ := by
  rcases hinstall with h | h
  · rw [h] at hres
    simp [startProcess, h, hres]
  · rcases hp : inp.pkg with _ | p
    · rw [hp] at hres
      simp [startProcess, hp, hres]
    · rw [hp] at hres
      simp [startProcess, hp, hres, h]

/-- On a successful `startProcess` call, the returned handle id is the
server-id/timestamp composite and the registry gained exactly that entry,
mapped to the spawned child. -/
theorem startProcess_ok (serverId : String) (inp : StartInput)
    (reg : Registry) {processId : String}
    (h : (startProcess serverId inp reg).result = Except.ok processId) :
    processId = genProcessId serverId inp.now
    ∧ (startProcess serverId inp reg).registry
        = alSet reg processId inp.spawnedProc
    ∧ (startProcess serverId inp reg).spawned = some inp.spawnedProc := by
  rcases hres : resolveStartScript inp.files inp.pkg with e | script
  · rw [startProcess_resolve_error serverId inp reg e hres] at h
    simp at h
  · rcases hp : inp.pkg with _ | p
    · rw [startProcess_spawn serverId inp reg script hres (Or.inl hp)] at h ⊢
      simp at h
      subst h
      exact ⟨rfl, rfl, rfl⟩
    · by_cases hexit : inp.installExit = 0
      · rw [startProcess_spawn serverId inp reg script hres (Or.inr hexit)] at h ⊢
        simp at h
        subst h
        exact ⟨rfl, rfl, rfl⟩
      · rw [hp] at hres
        have hfail : startProcess serverId inp reg =
            ⟨Except.error ("Failed to start process: Error: npm install failed with code "
                ++ toString inp.installExit), reg, none⟩ := by
          simp [startProcess, hp, hres, hexit]
        rw [hfail] at h
        simp at h

/-- C3: when package.json exists, the resolver picked a script, and
`npm install` closes with a non-zero code, `startProcess` throws the error
naming that exit code; the registry is unchanged and no project child
process is spawned. -/
theorem C3_install_failure (serverId : String) (inp : StartInput)
    (reg : Registry) (script : String)
    (hres : resolveStartScript inp.files inp.pkg = Except.ok script)
    (p : PkgJson) (hpkg : inp.pkg = some p)
    (hexit : inp.installExit ≠ 0) :
    startProcess serverId inp reg =
      ⟨Except.error ("Failed to start process: Error: npm install failed with code "
          ++ toString inp.installExit), reg, none⟩ := by
  rw [hpkg] at hres
  simp [startProcess, hpkg, hres, hexit]

/-- C3 witness: an empty-manifest project whose install exits with code 1
fails with the exit code in the message, leaving the empty registry empty. -/
theorem C3_install_failure_witness :
    startProcess "srv" ⟨["index.js"], some ⟨none, none⟩, 1, ⟨3⟩, 0⟩ [] =
      ⟨Except.error ("Failed to start process: Error: npm install failed with code "
          ++ toString (1 : Int)), [], none⟩ :=
  C3_install_failure "srv" ⟨["index.js"], some ⟨none, none⟩, 1, ⟨3⟩, 0⟩ []
    "node index.js" (by decide) ⟨none, none⟩ rfl (by decide)

/-- C4: when `startProcess` returns successfully, the returned handle id is
mapped in the registry to the spawned child process, and handling the
process's close event or error event deletes that entry, so the handle is
absent afterwards. -/
theorem C4_registry_start_and_exit (serverId : String) (inp : StartInput)
    (reg : Registry) (processId : String)
    (h : (startProcess serverId inp reg).result = Except.ok processId) :
    alGet (startProcess serverId inp reg).registry processId
        = some inp.spawnedProc
    ∧ (startProcess serverId inp reg).spawned = some inp.spawnedProc
    ∧ alGet (onCloseHandler (startProcess serverId inp reg).registry processId)
        processId = none
    ∧ alGet (onErrorHandler (startProcess serverId inp reg).registry processId)
        processId = none := by
  obtain ⟨hpid, hreg, hsp⟩ := startProcess_ok serverId inp reg h
  refine ⟨?_, hsp, ?_, ?_⟩
  · rw [hreg]
    exact alGet_alSet_self reg processId inp.spawnedProc
  · unfold onCloseHandler
    exact alGet_alErase_self _ processId
  · unfold onErrorHandler
    exact alGet_alErase_self _ processId

/-- C4 witness: a start of a plain `bot.js` project registers the handle
`srv-5`, and the close handler removes it. -/
theorem C4_registry_start_and_exit_witness :
    alGet (startProcess "srv" ⟨["bot.js"], none, 0, ⟨7⟩, 5⟩ []).registry "srv-5"
        = some ⟨7⟩
    ∧ (startProcess "srv" ⟨["bot.js"], none, 0, ⟨7⟩, 5⟩ []).spawned = some ⟨7⟩
    ∧ alGet (onCloseHandler
          (startProcess "srv" ⟨["bot.js"], none, 0, ⟨7⟩, 5⟩ []).registry "srv-5")
        "srv-5" = none
    ∧ alGet (onErrorHandler
          (startProcess "srv" ⟨["bot.js"], none, 0, ⟨7⟩, 5⟩ []).registry "srv-5")
        "srv-5" = none :=
  C4_registry_start_and_exit "srv" ⟨["bot.js"], none, 0, ⟨7⟩, 5⟩ [] "srv-5"
    (by decide)

/-- C5: `stopProcess` is a total function; on an unmapped handle it returns
the registry unchanged and kills nothing, and on a mapped handle it kills
exactly the mapped process and removes the entry at once, leaving every
other key untouched. -/
theorem C5_stop_semantics (reg : Registry) (h : String) :
    (alGet reg h = none → stopProcess reg h = (reg, none))
    ∧ ∀ p, alGet reg h = some p →
        (stopProcess reg h).2 = some p
        ∧ alGet (stopProcess reg h).1 h = none
        ∧ ∀ k, k ≠ h → alGet (stopProcess reg h).1 k = alGet reg k := by
  constructor
  · intro hn
    unfold stopProcess
    rw [hn]
  · intro p hp
    unfold stopProcess
    rw [hp]
    exact ⟨rfl, alGet_alErase_self reg h, fun k hk => alGet_alErase_ne reg hk⟩

/-- C5 witness: stopping the only registered handle kills its process and
empties the registry; the other-key clause holds at key `b`. -/
theorem C5_stop_semantics_witness :
    (stopProcess [("a", ⟨1⟩)] "a").2 = some ⟨1⟩
    ∧ alGet (stopProcess [("a", ⟨1⟩)] "a").1 "a" = none
    ∧ ∀ k, k ≠ "a" →
        alGet (stopProcess [("a", ⟨1⟩)] "a").1 k = alGet [("a", ⟨1⟩)] k :=
  (C5_stop_semantics [("a", ⟨1⟩)] "a").2 ⟨1⟩ (by decide)

/-- C6 counterexample: at a concrete failed start (a directory whose only
file is `readme.txt`, so resolution fails), the handler does write a status
from the domain together with a null handle, but the status written is
`stopped` — the same value as an ordinary non-running server — not the
domain's only failure-distinguishing value `error`, so the claim that the
record is marked with a status that distinguishes the failed start is
false. -/
theorem C6_counterexample :
    ((startServerHandler (some ⟨"s1", "u1", "stopped", none, "p"⟩) "u1"
        true false [] ["readme.txt"] ⟨["readme.txt"], none, 0, ⟨1⟩, 0⟩ []).1).httpStatus
        = 500
    ∧ ((startServerHandler (some ⟨"s1", "u1", "stopped", none, "p"⟩) "u1"
        true false [] ["readme.txt"] ⟨["readme.txt"], none, 0, ⟨1⟩, 0⟩ []).1).update
        = some (none, "stopped")
    ∧ ("stopped" : String) ≠ "error" := by
  refine ⟨by decide, by decide, by decide⟩

/-- C6 (amended): when the start operation fails, the HTTP start handler
catches the error and, before returning the 500 response, writes a null
process handle together with the status `stopped` — a value from the
record's status domain, but the same value used for a normal stop, not a
distinguishing failure status. -/
theorem C6_start_failure_marks_stopped (srv : ServerRec)
    (sessionUserId : String) (rootMovedExists : Bool)
    (filesInMoved filesInRoot : List String) (inp : StartInput)
    (reg : Registry) (msg : String)
    (hown : srv.userId = sessionUserId)
    (hmoved : rootMovedExists = true → filesInMoved ≠ [])
    (hroot : rootMovedExists = false → filesInRoot ≠ [])
    (hfail : (startProcess srv.id inp reg).result = Except.error msg) :
    (startServerHandler (some srv) sessionUserId true rootMovedExists
        filesInMoved filesInRoot inp reg).1
      = ⟨500, some (none, "stopped"), msg⟩
    ∧ "stopped" ∈ serverStatuses := by
  refine ⟨?_, by decide⟩
  cases rootMovedExists with
  | true =>
    have h1 : filesInMoved.isEmpty = false := by
      cases hm : filesInMoved with
      | nil => exact absurd hm (hmoved rfl)
      | cons a l => rfl
    simp [startServerHandler, hown, h1, hfail]
  | false =>
    have h1 : filesInRoot.isEmpty = false := by
      cases hm : filesInRoot with
      | nil => exact absurd hm (hroot rfl)
      | cons a l => rfl
    simp [startServerHandler, hown, h1, hfail]

/-- C6 witness: a failed start over a populated `.root_moved` directory with
no recognizable entry point yields the 500 response with the
`(null, stopped)` record update. -/
theorem C6_start_failure_marks_stopped_witness :
    (startServerHandler (some ⟨"s2", "u2", "running", none, "p"⟩) "u2"
        true true ["readme.txt"] [] ⟨["readme.txt"], none, 0, ⟨1⟩, 0⟩ []).1
      = ⟨500,  some (none, "stopped"),
          "Failed to start process: Error: No valid entry point found. Please ensure you have index.js, main.js, app.js, server.js, or bot.js in your project."⟩
    ∧ "stopped" ∈ serverStatuses :=
  C6_start_failure_marks_stopped ⟨"s2", "u2", "running", none, "p"⟩ "u2"
    true ["readme.txt"] [] ⟨["readme.txt"], none, 0, ⟨1⟩, 0⟩ [] _
    rfl (fun _ => by decide) (fun hc => by cases hc) (by decide)

/-- C7 counterexample: two successful starts of the same server whose
`Date.now()` values coincide (two calls in the same millisecond) return the
SAME handle id, and the second `Map.set` overwrites the first entry: after
both starts the registry holds a single entry even though two distinct live
processes were spawned, so handle ids are not always distinct and the
1:1 mapping between entries and live processes fails. -/
theorem C7_counterexample :
    (startProcess "srv" ⟨["bot.js"], none, 0, ⟨1⟩, 1000⟩ []).result
        = Except.ok "srv-1000"
    ∧ (startProcess "srv" ⟨["bot.js"], none, 0, ⟨2⟩, 1000⟩
          (startProcess "srv" ⟨["bot.js"], none, 0, ⟨1⟩, 1000⟩ []).registry).result
        = Except.ok "srv-1000"
    ∧ (⟨1⟩ : ChildProc) ≠ (⟨2⟩ : ChildProc)
    ∧ (startProcess "srv" ⟨["bot.js"], none, 0, ⟨2⟩, 1000⟩
          (startProcess "srv" ⟨["bot.js"], none, 0, ⟨1⟩, 1000⟩ []).registry).registry
        = [("srv-1000", ⟨2⟩)] := by
  refine ⟨by decide, by decide, by decide, by decide⟩

/-- C7 (amended): every handle id returned by a successful `startProcess`
is the composite of the server id and the spawn-time `Date.now()` value,
and two successful start calls for the same server id yield different
handle ids whenever their spawn timestamps differ; in the same millisecond
the ids collide and the later registration overwrites the earlier one. -/
theorem C7_handle_id_composite (serverId : String) (inp1 inp2 : StartInput)
    (reg1 reg2 : Registry) (p1 p2 : String)
    (h1 : (startProcess serverId inp1 reg1).result = Except.ok p1)
    (h2 : (startProcess serverId inp2 reg2).result = Except.ok p2) :
    p1 = genProcessId serverId inp1.now
    ∧ p2 = genProcessId serverId inp2.now
    ∧ (inp1.now ≠ inp2.now → p1 ≠ p2) := by
  obtain ⟨e1, -, -⟩ := startProcess_ok serverId inp1 reg1 h1
  obtain ⟨e2, -, -⟩ := startProcess_ok serverId inp2 reg2 h2
  refine ⟨e1, e2, ?_⟩
  intro hne heq
  rw [e1, e2] at heq
  exact hne (genProcessId_now_inj serverId heq)

/-- C7 witness: two starts of the same server at timestamps 1 and 2 return
the composites `srv-1` and `srv-2`, which differ. -/
theorem C7_handle_id_composite_witness :
    ("srv-1" : String) = genProcessId "srv" 1
    ∧ ("srv-2" : String) = genProcessId "srv" 2
    ∧ ((1 : Nat) ≠ 2 → ("srv-1" : String) ≠ "srv-2") :=
  C7_handle_id_composite "srv" ⟨["bot.js"], none, 0, ⟨1⟩, 1⟩
    ⟨["bot.js"], none, 0, ⟨2⟩, 2⟩ [] [] "srv-1" "srv-2"
    (by decide) (by decide)

/-- C8: a server-creation request is answered with the 400 limit response
and causes no side effect (no directory, no record) exactly when the user
already owns three or more servers; with fewer than three the request
proceeds to creation — the directory is made and, when the body validates,
the record is inserted. -/
theorem C8_server_limit (existingServers : List String) (validBody : Bool) :
    (((createServerHandler existingServers validBody).httpStatus = 400
        ∧ (createServerHandler existingServers validBody).message
            = "Server limit reached (maximum 3 servers)"
        ∧ (createServerHandler existingServers validBody).dirCreated = false
        ∧ (createServerHandler existingServers validBody).recordCreated = false)
      ↔ existingServers.length ≥ 3)
    ∧ (existingServers.length < 3 →
        (createServerHandler existingServers validBody).dirCreated = true
        ∧ (validBody = true →
            (createServerHandler existingServers validBody).recordCreated
              = true)) := by
  unfold createServerHandler
  by_cases hlen : existingServers.length ≥ 3
  · simp [hlen]
  · cases validBody <;> simp [hlen]

/-- C8 witness: a user holding three servers is rejected with the limit
response and no side effect. -/
theorem C8_server_limit_witness :
    (createServerHandler ["a", "b", "c"] true).httpStatus = 400
    ∧ (createServerHandler ["a", "b", "c"] true).message
        = "Server limit reached (maximum 3 servers)"
    ∧ (createServerHandler ["a", "b", "c"] true).dirCreated = false
    ∧ (createServerHandler ["a", "b", "c"] true).recordCreated = false :=
  (C8_server_limit ["a", "b", "c"] true).1.mpr (by decide)

/-- C9: every chunk of the installer's stdout/stderr is forwarded with the
prefix tag for npm, every chunk of the running process's stdout and stderr
with the stdout and stderr tags, and the close notice for exit code N is
the untagged text `Process exited with code N` — it carries none of the
three tag prefixes. -/
theorem C9_log_tagging (c : String) (n : Int) :
    npmLogLine c = "[npm] " ++ c.trim
    ∧ stdoutLogLine c = "[stdout] " ++ c.trim
    ∧ stderrLogLine c = "[stderr] " ++ c.trim
    ∧ closeLogLine (some n) = "Process exited with code " ++ toString n
    ∧ ∀ t : String, closeLogLine (some n) ≠ "[npm] " ++ t
        ∧ closeLogLine (some n) ≠ "[stdout] " ++ t
        ∧ closeLogLine (some n) ≠ "[stderr] " ++ t := by
  refine ⟨rfl, rfl, rfl, rfl, ?_⟩
  intro t
  have hP : (closeLogLine (some n)).data.head? = some 'P' :=
    data_head_append "Process exited with code " (toString n) 'P' rfl
  refine ⟨string_ne_of_head_ne ?_, string_ne_of_head_ne ?_,
    string_ne_of_head_ne ?_⟩
  · rw [hP, data_head_append "[npm] " t '[' rfl]
    decide
  · rw [hP, data_head_append "[stdout] " t '[' rfl]
    decide
  · rw [hP, data_head_append "[stderr] " t '[' rfl]
    decide

/-- C9 witness: the close notice at exit code 0, and its not carrying the
npm tag. -/
theorem C9_log_tagging_witness :
    closeLogLine (some 0) = "Process exited with code " ++ toString (0 : Int)
    ∧ closeLogLine (some 0) ≠ "[npm] " ++ "0" :=
  ⟨(C9_log_tagging "x" 0).2.2.2.1, ((C9_log_tagging "x" 0).2.2.2.2 "0").1⟩

/-- C10: `deleteFile` throws the protected-file error and removes nothing
for every path outside `.root_moved` whose basename is on the protected
list; for every other path it removes the file when it exists (leaving all
other paths untouched) and is a silent no-op when it does not. -/
theorem C10_delete_protected (fsFiles : List String) (filePath : String) :
    (containsSubstr filePath ".root_moved" = false →
      protectedFiles.contains (posixBasename filePath) = true →
      deleteFile fsFiles filePath
        = Except.error ("Cannot delete protected file: "
            ++ posixBasename filePath))
    ∧ (containsSubstr filePath ".root_moved" = true
        ∨ protectedFiles.contains (posixBasename filePath) = false →
      ∃ fs2, deleteFile fsFiles filePath = Except.ok fs2
        ∧ filePath ∉ fs2
        ∧ (∀ q, q ≠ filePath → (q ∈ fs2 ↔ q ∈ fsFiles))
        ∧ (filePath ∉ fsFiles → fs2 = fsFiles)) := by
  constructor
  · intro hrm hprot
    have hmem : posixBasename filePath ∈ protectedFiles := by simpa using hprot
    simp [deleteFile, hrm, hmem]
  · intro hcase
    by_cases hin : filePath ∈ fsFiles
    · refine ⟨fsFiles.filter (fun f => f ≠ filePath), ?_, ?_, ?_, ?_⟩
      · rcases hcase with h | h
        · simp [deleteFile, h, hin]
        · have hmem : posixBasename filePath ∉ protectedFiles := by
            simpa using h
          simp [deleteFile, hmem, hin]
      · simp [List.mem_filter]
      · intro q hq
        simp [List.mem_filter, hq]
      · intro habs
        exact absurd hin habs
    · refine ⟨fsFiles, ?_, hin, fun q hq => Iff.rfl, fun _ => rfl⟩
      rcases hcase with h | h
      · simp [deleteFile, h, hin]
      · have hmem : posixBasename filePath ∉ protectedFiles := by simpa using h
        simp [deleteFile, hmem, hin]

/-- C10 witness: deleting `servers/abc/index.js` (outside `.root_moved`,
protected basename) throws the protected-file error. -/
theorem C10_delete_protected_witness :
    deleteFile ["servers/abc/index.js"] "servers/abc/index.js"
      = Except.error ("Cannot delete protected file: "
          ++ posixBasename "servers/abc/index.js") :=
  (C10_delete_protected ["servers/abc/index.js"] "servers/abc/index.js").1
    (by decide) (by decide)

end NodeHost
